import Mathlib

/-!
Verification of the linear-regression visualization component
(`src/components/LinearRegressionVisualization.tsx`).

The component's numeric computations are embedded over `ℚ` (exact rational
arithmetic).  Every definition below mirrors a function or expression of the
source file; `Math.random()` is modelled as an explicit oracle
`rand : ℕ → ℚ` constrained to `[0, 1)` where a claim needs that bound.
-/

/-- `interface Point { x: number; y: number }` (source lines 5-8). -/
structure Point where
  x : ℚ
  y : ℚ
  deriving DecidableEq, Repr

/-- `d3.sum(data, d => d.x)` (source line 38). -/
def sumX (data : List Point) : ℚ := (data.map (fun d => d.x)).sum

/-- `d3.sum(data, d => d.y)` (source line 39). -/
def sumY (data : List Point) : ℚ := (data.map (fun d => d.y)).sum

/-- `d3.sum(data, d => d.x * d.y)` (source line 40). -/
def sumXY (data : List Point) : ℚ := (data.map (fun d => d.x * d.y)).sum

/-- `d3.sum(data, d => d.x * d.x)` (source line 41). -/
def sumXX (data : List Point) : ℚ := (data.map (fun d => d.x * d.x)).sum

/-- The denominator `n * sumXX - sumX * sumX` of the slope formula
(source line 43). -/
def regressionDenom (data : List Point) : ℚ :=
  (data.length : ℚ) * sumXX data - sumX data * sumX data

/-- `calculateRegression` (source lines 36-49): closed-form OLS slope and
intercept.  In the component the pair is also stored into the `slope` /
`intercept` state; the returned pair `(m, b)` carries the same values. -/
def calculateRegression (data : List Point) : ℚ × ℚ :=
  let n : ℚ := (data.length : ℚ)
  let m := (n * sumXY data - sumX data * sumY data) /
    (n * sumXX data - sumX data * sumX data)
  let b := (sumY data - m * sumX data) / n
  (m, b)

/-- `generateData` (source lines 26-33): 20 points, `x = i + 1`,
`y = 2.5 * x + 5 + Math.random() * 5 - 2.5`.  The i-th call of
`Math.random()` is modelled by `rand i`. -/
def generateData (rand : ℕ → ℚ) : List Point :=
  (List.range 20).map (fun (i : ℕ) =>
    { x := (i : ℚ) + 1
      y := 2.5 * ((i : ℚ) + 1) + 5 + (rand i * 5 - 2.5) })

/-- The perfectly linear test sample `[(1,3),(2,5),(3,7)]` from the spec. -/
def sampleLinear : List Point := [⟨1, 3⟩, ⟨2, 5⟩, ⟨3, 7⟩]

/-- The degenerate test sample `[(1,1),(1,3)]` (identical x values). -/
def sampleDegenerate : List Point := [⟨1, 1⟩, ⟨1, 3⟩]

/-- C2: on `[(1,3),(2,5),(3,7)]` the estimator returns slope 2, intercept 1
exactly.  (All intermediate values of the floating-point computation on this
input — the integer sums 3, 6, 15, 34, 14, the products, and the quotients
12/6 = 2 and 3/3 = 1 — are exactly representable in binary64 and every IEEE
operation involved is exact, so the rational model coincides with the
JavaScript computation here.) -/
theorem calculateRegression_sampleLinear_exact :
    calculateRegression sampleLinear = (2, 1) := by
  norm_num [calculateRegression, sumX, sumY, sumXY, sumXX, sampleLinear,
    Prod.ext_iff]

/-- C3: every run of the data generator yields exactly 20 points whose x
values are, in order, the integers 1 through 20 — regardless of the values
drawn from `Math.random()`. -/
theorem generateData_xs (rand : ℕ → ℚ) :
    (generateData rand).length = 20 ∧
    (generateData rand).map (fun p => p.x) =
      (List.range 20).map (fun i => (i : ℚ) + 1) :=
  ⟨rfl, rfl⟩

/-- C4: when each `Math.random()` draw lies in `[0, 1)`, every generated
point satisfies `|y - (2.5 * x + 5)| ≤ 2.5`. -/
theorem generateData_noise_bound (rand : ℕ → ℚ)
    (hr : ∀ i, 0 ≤ rand i ∧ rand i < 1) :
    ∀ p ∈ generateData rand, |p.y - (2.5 * p.x + 5)| ≤ 2.5 := by
  intro p hp
  simp only [generateData, List.mem_map, List.mem_range] at hp
  obtain ⟨i, _, rfl⟩ := hp
  have h0 := (hr i).1
  have h1 := (hr i).2
  rw [abs_le]
  dsimp only
  constructor <;> nlinarith

/-- The constant random oracle 1/2, used to witness the noise bound. -/
def halfRand : ℕ → ℚ := fun _ => 1 / 2

theorem generateData_noise_bound_witness :
    (∀ i, 0 ≤ halfRand i ∧ halfRand i < 1) ∧
    (∀ p ∈ generateData halfRand, |p.y - (2.5 * p.x + 5)| ≤ 2.5) :=
  ⟨fun _ => by norm_num [halfRand],
   generateData_noise_bound halfRand (fun _ => by norm_num [halfRand])⟩

/-- C5 (code evaluated at the failing input): on the degenerate sample
`[(1,1),(1,3)]` the slope's denominator `n * sumXX - sumX * sumX`
(source line 43) is zero, so the code performs a zero-denominator division
(`NaN` in JavaScript); `calculateRegression` returns a plain pair and has no
"undefined fit" signal. -/
theorem calculateRegression_degenerate_denom_zero :
    regressionDenom sampleDegenerate = 0 := by
  norm_num [regressionDenom, sumXX, sumX, sampleDegenerate]

/-- Map-sum over a list as a sum over its index type. -/
lemma sum_map_eq_sum_fin (xs : List ℚ) (g : ℚ → ℚ) :
    (xs.map g).sum = ∑ i : Fin xs.length, g (xs.get i) := by
  have h1 : xs.map g = List.ofFn (g ∘ xs.get) := by
    rw [← List.map_ofFn, List.ofFn_get]
  rw [h1, List.sum_ofFn]
  rfl

/-- If two values of `f` differ, then `n * Σ f² - (Σ f)²` is positive
(the classical variance argument, over `ℚ`). -/
lemma denom_pos_of_ne (n : ℕ) (f : Fin n → ℚ) (i j : Fin n)
    (hij : f i ≠ f j) :
    0 < (n : ℚ) * (∑ k : Fin n, f k * f k) -
      (∑ k : Fin n, f k) * (∑ k : Fin n, f k) := by
  have hn0 : 0 < n := Nat.pos_of_ne_zero (by rintro rfl; exact i.elim0)
  have hnQ : (0 : ℚ) < (n : ℚ) := by exact_mod_cast hn0
  set μ : ℚ := (∑ k : Fin n, f k) / (n : ℚ) with hμ
  have hexp : ∀ k : Fin n,
      (f k - μ) ^ 2 = f k * f k - 2 * μ * f k + μ ^ 2 := fun k => by ring
  have h1 : ∑ k : Fin n, (f k - μ) ^ 2 =
      (∑ k : Fin n, f k * f k) - 2 * μ * (∑ k : Fin n, f k) +
        (n : ℚ) * μ ^ 2 := by
    simp only [hexp]
    rw [Finset.sum_add_distrib, Finset.sum_sub_distrib, ← Finset.mul_sum,
      Finset.sum_const, Finset.card_univ, Fintype.card_fin, nsmul_eq_mul]
  have hterm : ∃ k : Fin n, f k ≠ μ := by
    by_contra h
    push_neg at h
    exact hij (by rw [h i, h j])
  obtain ⟨k0, hk0⟩ := hterm
  have hpos : 0 < ∑ k : Fin n, (f k - μ) ^ 2 :=
    Finset.sum_pos' (fun k _ => sq_nonneg _)
      ⟨k0, Finset.mem_univ k0,
        pow_two_pos_of_ne_zero (sub_ne_zero.mpr hk0)⟩
  have hrel : (n : ℚ) * ∑ k : Fin n, (f k - μ) ^ 2 =
      (n : ℚ) * (∑ k : Fin n, f k * f k) -
        (∑ k : Fin n, f k) * (∑ k : Fin n, f k) := by
    rw [h1, hμ]
    field_simp
    ring
  have := mul_pos hnQ hpos
  rw [hrel] at this
  exact this

/-- The slope denominator is positive whenever two x values differ. -/
lemma regressionDenom_pos (data : List Point)
    (hx : ∃ p ∈ data, ∃ q ∈ data, p.x ≠ q.x) :
    0 < regressionDenom data := by
  obtain ⟨p, hp, q, hq, hpq⟩ := hx
  have hpx : p.x ∈ data.map (fun d => d.x) := List.mem_map_of_mem _ hp
  have hqx : q.x ∈ data.map (fun d => d.x) := List.mem_map_of_mem _ hq
  set xs : List ℚ := data.map (fun d => d.x) with hxs
  obtain ⟨i, hi⟩ := List.mem_iff_get.mp hpx
  obtain ⟨j, hj⟩ := List.mem_iff_get.mp hqx
  have hij : xs.get i ≠ xs.get j := by rw [hi, hj]; exact hpq
  have hpos := denom_pos_of_ne xs.length xs.get i j hij
  have hsum : sumX data = ∑ k : Fin xs.length, xs.get k := by
    have := sum_map_eq_sum_fin xs id
    simpa [sumX, hxs] using this
  have hsumsq : sumXX data = ∑ k : Fin xs.length, xs.get k * xs.get k := by
    have h1 : sumXX data = (xs.map (fun x => x * x)).sum := by
      rw [hxs, List.map_map]; rfl
    rw [h1, sum_map_eq_sum_fin xs (fun x => x * x)]
  have hlen : (data.length : ℚ) = (xs.length : ℚ) := by
    rw [hxs, List.length_map]
  rw [regressionDenom, hsum, hsumsq, hlen]
  exact hpos

/-- C1: for a non-empty sample whose x values are not all identical, the
estimator returns exactly the closed-form OLS pair, and that pair satisfies
both normal equations for the sample. -/
theorem calculateRegression_ols (data : List Point)
    (hne : data ≠ [])
    (hx : ∃ p ∈ data, ∃ q ∈ data, p.x ≠ q.x) :
    (calculateRegression data).1 =
      ((data.length : ℚ) * sumXY data - sumX data * sumY data) /
        ((data.length : ℚ) * sumXX data - sumX data * sumX data) ∧
    (calculateRegression data).2 =
      (sumY data - (calculateRegression data).1 * sumX data) /
        (data.length : ℚ) ∧
    (calculateRegression data).1 * sumXX data +
      (calculateRegression data).2 * sumX data = sumXY data ∧
    (calculateRegression data).1 * sumX data +
      (calculateRegression data).2 * (data.length : ℚ) = sumY data := by
  have hn : (data.length : ℚ) ≠ 0 := by
    have h0 : data.length ≠ 0 := fun h => hne (List.length_eq_zero.mp h)
    exact_mod_cast h0
  have hd : (data.length : ℚ) * sumXX data - sumX data * sumX data ≠ 0 := by
    have := regressionDenom_pos data hx
    rw [regressionDenom] at this
    exact ne_of_gt this
  refine ⟨rfl, rfl, ?_, ?_⟩
  · show ((data.length : ℚ) * sumXY data - sumX data * sumY data) /
        ((data.length : ℚ) * sumXX data - sumX data * sumX data) * sumXX data +
      (sumY data - ((data.length : ℚ) * sumXY data - sumX data * sumY data) /
        ((data.length : ℚ) * sumXX data - sumX data * sumX data) * sumX data) /
          (data.length : ℚ) * sumX data = sumXY data
    field_simp
    ring
  · show ((data.length : ℚ) * sumXY data - sumX data * sumY data) /
        ((data.length : ℚ) * sumXX data - sumX data * sumX data) * sumX data +
      (sumY data - ((data.length : ℚ) * sumXY data - sumX data * sumY data) /
        ((data.length : ℚ) * sumXX data - sumX data * sumX data) * sumX data) /
          (data.length : ℚ) * (data.length : ℚ) = sumY data
    field_simp
    ring

theorem calculateRegression_ols_witness :
    (sampleLinear ≠ [] ∧
      (∃ p ∈ sampleLinear, ∃ q ∈ sampleLinear, p.x ≠ q.x)) ∧
    ((calculateRegression sampleLinear).1 =
      ((sampleLinear.length : ℚ) * sumXY sampleLinear -
          sumX sampleLinear * sumY sampleLinear) /
        ((sampleLinear.length : ℚ) * sumXX sampleLinear -
          sumX sampleLinear * sumX sampleLinear) ∧
    (calculateRegression sampleLinear).2 =
      (sumY sampleLinear - (calculateRegression sampleLinear).1 *
        sumX sampleLinear) / (sampleLinear.length : ℚ) ∧
    (calculateRegression sampleLinear).1 * sumXX sampleLinear +
      (calculateRegression sampleLinear).2 * sumX sampleLinear =
        sumXY sampleLinear ∧
    (calculateRegression sampleLinear).1 * sumX sampleLinear +
      (calculateRegression sampleLinear).2 * (sampleLinear.length : ℚ) =
        sumY sampleLinear) :=
  ⟨⟨by decide, ⟨⟨1, 3⟩, by decide, ⟨2, 5⟩, by decide, by decide⟩⟩,
    calculateRegression_ols sampleLinear (by decide)
      ⟨⟨1, 3⟩, by decide, ⟨2, 5⟩, by decide, by decide⟩⟩

/-- C10: in exact rational arithmetic the returned fit satisfies
`sumY = m * sumX + n * b`, i.e. the fitted line passes through the sample
mean point. -/
theorem calculateRegression_mean_point (data : List Point)
    (hne : data ≠ [])
    (_hx : ∃ p ∈ data, ∃ q ∈ data, p.x ≠ q.x) :
    sumY data = (calculateRegression data).1 * sumX data +
      (data.length : ℚ) * (calculateRegression data).2 := by
  have hn : (data.length : ℚ) ≠ 0 := by
    have h0 : data.length ≠ 0 := fun h => hne (List.length_eq_zero.mp h)
    exact_mod_cast h0
  have hb : (calculateRegression data).2 =
      (sumY data - (calculateRegression data).1 * sumX data) /
        (data.length : ℚ) := rfl
  rw [hb, mul_div_cancel₀ _ hn]
  ring

theorem calculateRegression_mean_point_witness :
    (sampleLinear ≠ [] ∧
      (∃ p ∈ sampleLinear, ∃ q ∈ sampleLinear, p.x ≠ q.x)) ∧
    sumY sampleLinear = (calculateRegression sampleLinear).1 *
        sumX sampleLinear +
      (sampleLinear.length : ℚ) * (calculateRegression sampleLinear).2 :=
  ⟨⟨by decide, ⟨⟨1, 3⟩, by decide, ⟨2, 5⟩, by decide, by decide⟩⟩,
    calculateRegression_mean_point sampleLinear (by decide)
      ⟨⟨1, 3⟩, by decide, ⟨2, 5⟩, by decide, by decide⟩⟩

/-! ## Chart rendering (source lines 63-170) -/

/-- `d3.max(l)!` on a non-empty list of numbers: its maximum (`getD 0` is
never reached in the component, which bails out on an empty sample). -/
def d3maxD (l : List ℚ) : ℚ := (l.max?).getD 0

/-- `d3.scaleLinear().domain([d0, d1]).range([r0, r1])` applied to `v`. -/
def scaleLinear (d0 d1 r0 r1 v : ℚ) : ℚ :=
  r0 + (v - d0) / (d1 - d0) * (r1 - r0)

/-- `xScale` (source lines 73-76): domain `[0, max x + 1]`,
range `[margin.left, width - margin.right] = [40, 570]`. -/
def xScale (points : List Point) (v : ℚ) : ℚ :=
  scaleLinear 0 (d3maxD (points.map (fun d => d.x)) + 1) 40 570 v

/-- `yScale` (source lines 78-81): domain `[0, max y + 5]`,
range `[height - margin.bottom, margin.top] = [370, 40]`. -/
def yScale (points : List Point) (v : ℚ) : ℚ :=
  scaleLinear 0 (d3maxD (points.map (fun d => d.y)) + 5) 370 40 v

/-- `d3.range(start, stop, step)`: the values `start + i * step` for
`i = 0, …, ⌈(stop - start) / step⌉ - 1`. -/
def d3range (start stop step : ℚ) : List ℚ :=
  (List.range (⌈(stop - start) / step⌉).toNat).map
    (fun (i : ℕ) => start + (i : ℚ) * step)

/-- `linePoints` (source lines 145-150): samples of the fitted line
`y = m * x + b` at increments of 0.5 over `[0, max x + 1)`. -/
def linePoints (points : List Point) (m b : ℚ) : List Point :=
  (d3range 0 (d3maxD (points.map (fun d => d.x)) + 1) (1 / 2)).map
    (fun x => { x := x, y := m * x + b })

/-- The scene drawn by the render effect (source lines 69-169): scale
domains, scaled circle positions, and the regression-line path samples
(the path's datum once the staggered animation has completed). -/
structure Scene where
  xDomainMax : ℚ
  yDomainMax : ℚ
  circles : List (ℚ × ℚ)
  lineData : List Point
  deriving DecidableEq, Repr

/-- The scene built from a sample and a fit, exactly as the effect body
draws it. -/
def buildScene (points : List Point) (m b : ℚ) : Scene :=
  { xDomainMax := d3maxD (points.map (fun d => d.x)) + 1
    yDomainMax := d3maxD (points.map (fun d => d.y)) + 5
    circles := points.map (fun d => (xScale points d.x, yScale points d.y))
    lineData := linePoints points m b }

/-- The component's state: the `points`, `slope`, `intercept` React state
plus the scene currently drawn into the SVG (`none` before any draw). -/
structure CState where
  points : List Point
  slope : ℚ
  intercept : ℚ
  scene : Option Scene
  deriving DecidableEq, Repr

/-- The initial component state. -/
def initialCState : CState := { points := [], slope := 0, intercept := 0, scene := none }

/-- The render effect (source lines 64-170): bails out on an empty sample,
otherwise recomputes the fit with `calculateRegression` and redraws the
whole scene from the sample and that fresh fit. -/
def renderEffectRun (s : CState) : CState :=
  if s.points = [] then s
  else
    let mb := calculateRegression s.points
    { s with
      slope := mb.1
      intercept := mb.2
      scene := some (buildScene s.points mb.1 mb.2) }

/-- `setPoints ps` followed by the effect run the state change triggers
(the effect's dependency array is `[points]`, source line 170). -/
def setPointsAndRender (s : CState) (ps : List Point) : CState :=
  renderEffectRun { s with points := ps }

/-- C6: setting a new non-empty sample recomputes the fit from that sample
before the scene is drawn; the drawn scene depends only on the new sample
(any stale slope/intercept/scene in the prior state `s` is overwritten). -/
theorem fit_recomputed_before_render (s : CState) (ps : List Point)
    (hps : ps ≠ []) :
    (setPointsAndRender s ps).points = ps ∧
    (setPointsAndRender s ps).slope = (calculateRegression ps).1 ∧
    (setPointsAndRender s ps).intercept = (calculateRegression ps).2 ∧
    (setPointsAndRender s ps).scene =
      some (buildScene ps (calculateRegression ps).1
        (calculateRegression ps).2) := by
  simp [setPointsAndRender, renderEffectRun, hps]

theorem fit_recomputed_before_render_witness :
    sampleLinear ≠ [] ∧
    ((setPointsAndRender initialCState sampleLinear).points = sampleLinear ∧
    (setPointsAndRender initialCState sampleLinear).slope =
      (calculateRegression sampleLinear).1 ∧
    (setPointsAndRender initialCState sampleLinear).intercept =
      (calculateRegression sampleLinear).2 ∧
    (setPointsAndRender initialCState sampleLinear).scene =
      some (buildScene sampleLinear (calculateRegression sampleLinear).1
        (calculateRegression sampleLinear).2)) :=
  ⟨by decide, fit_recomputed_before_render initialCState sampleLinear (by decide)⟩

/-! ## PNG export (source lines 52-61) -/

/-- Outcome of one `toPng` capture attempt: `some dataUrl` when the promise
resolves, `none` when it rejects. -/
def CaptureOracle : Type := Unit → Option String

/-- `downloadPNG` (source lines 52-61).  Returns the name of the downloaded
file, if any.  When `svgCurrent` is `none` (empty/unrendered scene) the
body is skipped entirely; when the capture rejects, the rejection is
unhandled.  In both cases the caller receives no failure signal — the
codomain has no failure constructor at all. -/
def downloadPNG (svgCurrent : Option Unit) (toPng : CaptureOracle) :
    Option String :=
  match svgCurrent with
  | none => none
  | some el =>
    match toPng el with
    | some _dataUrl => some "chart.png"
    | none => none

/-- C7 (code evaluated at the failing input): with no rendered SVG element
the export operation silently produces nothing — the result is `none`, the
same value as "no download", and no explicit failure is reported to the
caller. -/
theorem downloadPNG_empty_silent (toPng : CaptureOracle) :
    downloadPNG none toPng = none := rfl

/-! ## Tooltip (source lines 16-23, 121-139, 245-263) -/

/-- The tooltip React state (source lines 17-23). -/
structure TooltipState where
  visible : Bool
  x : ℚ
  y : ℚ
  dataX : Option ℚ
  dataY : Option ℚ
  deriving DecidableEq, Repr

/-- The `mouseenter` handler (source lines 121-129). -/
def handleMouseEnter (clientX clientY : ℚ) (d : Point) : TooltipState :=
  { visible := true, x := clientX, y := clientY,
    dataX := some d.x, dataY := some d.y }

/-- The `mousemove` handler (source lines 130-136). -/
def handleMouseMove (prev : TooltipState) (clientX clientY : ℚ) :
    TooltipState :=
  { prev with x := clientX, y := clientY }

/-- The `mouseleave` handler (source lines 137-139). -/
def handleMouseLeave : TooltipState :=
  { visible := false, x := 0, y := 0, dataX := none, dataY := none }

/-- `Number.prototype.toFixed(2)` as displayed value: rounding to the
nearest hundredth. -/
def toFixed2 (q : ℚ) : ℚ := ((round (100 * q) : ℤ) : ℚ) / 100

/-- The tooltip overlay (source lines 245-263): rendered only when
`visible`, showing the stored data coordinates via `toFixed(2)`. -/
def renderTooltipOverlay (t : TooltipState) : Option (Option ℚ × Option ℚ) :=
  if t.visible then some (t.dataX.map toFixed2, t.dataY.map toFixed2)
  else none

/-- C8: hovering a point stores exactly its underlying data coordinates and
shows the overlay with those coordinates rounded to two decimals; leaving
resets the state to hidden with empty data coordinates and removes the
overlay. -/
theorem tooltip_hover_and_leave (clientX clientY : ℚ) (d : Point) :
    handleMouseEnter clientX clientY d =
      { visible := true, x := clientX, y := clientY,
        dataX := some d.x, dataY := some d.y } ∧
    renderTooltipOverlay (handleMouseEnter clientX clientY d) =
      some (some (toFixed2 d.x), some (toFixed2 d.y)) ∧
    handleMouseLeave =
      { visible := false, x := 0, y := 0, dataX := none, dataY := none } ∧
    renderTooltipOverlay handleMouseLeave = none :=
  ⟨rfl, rfl, rfl, rfl⟩

/-! ## Line-drawing animation and its stale-callback race
(source lines 144-169)

`linePoints.forEach((_, i) => setTimeout(() => { ... }, i * 50))` schedules
one deferred callback per segment.  The model below keeps the browser's
timer queue explicit: `runLineEffect` is one run of the effect's
line-drawing part (it creates a fresh path object for the new generation
and appends its callbacks to the queue, cancelling nothing — the source has
no `clearTimeout`), and `fireCallback` is the event loop delivering one
pending timer, which slices `linePoints` and writes it into the path object
captured by that callback's closure. -/

/-- One scheduled `setTimeout` callback: the effect run (generation) that
scheduled it, the segment index `i`, and the delay `i * 50` ms. -/
structure PendingCallback where
  gen : ℕ
  seg : ℕ
  delay : ℕ
  deriving DecidableEq, Repr

/-- The timer-queue world: the number of effect runs so far, the
`linePoints` list captured by each run's closures, each run's path-object
datum, and the queue of not-yet-fired callbacks. -/
structure AnimWorld where
  currentGen : ℕ
  lineOf : ℕ → List Point
  pathData : ℕ → List Point
  pending : List PendingCallback

/-- Before the first effect run. -/
def initialAnimWorld : AnimWorld :=
  { currentGen := 0, lineOf := fun _ => [], pathData := fun _ => [],
    pending := [] }

/-- One run of the line-drawing part of the effect for a new sample with
fit `(m, b)` (source lines 145-169): new generation, fresh empty path,
one callback per line segment at delay `i * 50`; previously scheduled
callbacks stay in the queue untouched. -/
def runLineEffect (w : AnimWorld) (points : List Point) (m b : ℚ) :
    AnimWorld :=
  let g := w.currentGen + 1
  let lp := linePoints points m b
  { currentGen := g
    lineOf := fun g2 => if g2 = g then lp else w.lineOf g2
    pathData := fun g2 => if g2 = g then [] else w.pathData g2
    pending := w.pending ++
      (List.range lp.length).map (fun (i : ℕ) => ⟨g, i, i * 50⟩) }

/-- The event loop fires one pending callback (source lines 164-169):
`path.datum(linePoints.slice(0, i + 1)).attr("d", ...)` on the path object
of the generation that scheduled it. -/
def fireCallback (w : AnimWorld) (c : PendingCallback) : AnimWorld :=
  if c ∈ w.pending then
    { w with
      pending := w.pending.erase c
      pathData := fun g2 =>
        if g2 = c.gen then (w.lineOf c.gen).take (c.seg + 1)
        else w.pathData g2 }
  else w

/-- Evaluation of `fireCallback` on a queued callback. -/
lemma fireCallback_of_mem (w : AnimWorld) (c : PendingCallback)
    (h : c ∈ w.pending) :
    fireCallback w c =
      { w with
        pending := w.pending.erase c
        pathData := fun g2 =>
          if g2 = c.gen then (w.lineOf c.gen).take (c.seg + 1)
          else w.pathData g2 } := by
  simp [fireCallback, h]

/-- A second sample replacing `sampleLinear` mid-animation. -/
def sampleSecond : List Point := [⟨1, 1⟩, ⟨2, 2⟩]

/-- The line samples for `sampleLinear` with its fit `(2, 1)`:
increments of 0.5 over `[0, max x + 1) = [0, 4)`. -/
lemma linePoints_sampleLinear :
    linePoints sampleLinear 2 1 =
      [⟨0, 1⟩, ⟨1/2, 2⟩, ⟨1, 3⟩, ⟨3/2, 4⟩, ⟨2, 5⟩, ⟨5/2, 6⟩, ⟨3, 7⟩,
        ⟨7/2, 8⟩] := by
  have hm : d3maxD (sampleLinear.map (fun d => d.x)) = 3 := by decide
  simp only [linePoints, d3range, hm]
  norm_num
  rw [show (8 : ℤ).toNat = 8 from rfl]
  norm_num [List.range_succ, Point.mk.injEq]

/-- The line samples for `sampleSecond` with fit `(1, 0)`. -/
lemma linePoints_sampleSecond :
    linePoints sampleSecond 1 0 =
      [⟨0, 0⟩, ⟨1/2, 1/2⟩, ⟨1, 1⟩, ⟨3/2, 3/2⟩, ⟨2, 2⟩, ⟨5/2, 5/2⟩] := by
  have hm : d3maxD (sampleSecond.map (fun d => d.x)) = 2 := by decide
  simp only [linePoints, d3range, hm]
  norm_num
  rw [show (6 : ℤ).toNat = 6 from rfl]
  norm_num [List.range_succ, Point.mk.injEq]

/-- The world after the effect runs for `sampleLinear` (fit `(2, 1)`). -/
def animAfterFirst : AnimWorld :=
  runLineEffect initialAnimWorld sampleLinear 2 1

/-- The world after the sample changes to `sampleSecond` (fit `(1, 0)`)
while the first animation is still pending. -/
def animAfterSecond : AnimWorld :=
  runLineEffect animAfterFirst sampleSecond 1 0

/-- The fourth segment callback of the first (now stale) animation. -/
def staleCallback : PendingCallback := ⟨1, 3, 150⟩

lemma animAfterFirst_pending :
    animAfterFirst.pending =
      (List.range 8).map (fun (i : ℕ) => ⟨1, i, i * 50⟩) := by
  simp only [animAfterFirst, runLineEffect, initialAnimWorld,
    linePoints_sampleLinear]
  rfl

lemma animAfterSecond_pending :
    animAfterSecond.pending =
      (List.range 8).map (fun (i : ℕ) => ⟨1, i, i * 50⟩) ++
      (List.range 6).map (fun (i : ℕ) => ⟨2, i, i * 50⟩) := by
  simp only [animAfterSecond, runLineEffect, linePoints_sampleSecond,
    animAfterFirst_pending]
  rfl

lemma animAfterSecond_lineOf_one :
    animAfterSecond.lineOf 1 = linePoints sampleLinear 2 1 := by
  simp [animAfterSecond, animAfterFirst, runLineEffect, initialAnimWorld]

lemma animAfterSecond_pathData_one :
    animAfterSecond.pathData 1 = [] := by
  simp [animAfterSecond, animAfterFirst, runLineEffect, initialAnimWorld]

lemma staleCallback_mem :
    staleCallback ∈ animAfterSecond.pending := by
  rw [animAfterSecond_pending]
  decide

/-- C9: the line animation schedules one deferred callback per segment
(segment `i` at delay `i * 50` ms, over samples at 0.5 increments of
`[0, max x + 1)`); when a new sample replaces the current one those
callbacks stay queued, and delivering one of them after the change still
mutates the stale generation's path object. -/
theorem stale_line_callback_race :
    animAfterFirst.pending =
      (List.range 8).map (fun (i : ℕ) => ⟨1, i, i * 50⟩) ∧
    (linePoints sampleLinear 2 1).map (fun p => p.x) =
      [0, 1/2, 1, 3/2, 2, 5/2, 3, 7/2] ∧
    staleCallback ∈ animAfterSecond.pending ∧
    animAfterSecond.currentGen = 2 ∧
    staleCallback.gen ≠ animAfterSecond.currentGen ∧
    (fireCallback animAfterSecond staleCallback).pathData staleCallback.gen =
      (linePoints sampleLinear 2 1).take 4 ∧
    (fireCallback animAfterSecond staleCallback).pathData staleCallback.gen ≠
      animAfterSecond.pathData staleCallback.gen := by
  refine ⟨animAfterFirst_pending, ?_, staleCallback_mem, ?_, ?_, ?_, ?_⟩
  · rw [linePoints_sampleLinear]
    rfl
  · simp [animAfterSecond, animAfterFirst, runLineEffect, initialAnimWorld]
  · simp [animAfterSecond, animAfterFirst, runLineEffect, initialAnimWorld,
      staleCallback]
  · rw [fireCallback_of_mem _ _ staleCallback_mem]
    simp [staleCallback, animAfterSecond_lineOf_one]
  · rw [fireCallback_of_mem _ _ staleCallback_mem]
    simp only [staleCallback, animAfterSecond_pathData_one,
      animAfterSecond_lineOf_one, linePoints_sampleLinear]
    simp
